import Mathlib

/-!
# Emojicode compiler: storage types, local variables and the function analyser

A shallow embedding of

* `EmojicodeCompiler/StorageType.hpp` (the `StorageType` enumeration),
* `EmojicodeCompiler/Generation/FnCodeGenerator.hpp` (the `LocalVariable` struct),
* `Compiler/Analysis/FunctionAnalyser.hpp` (constructors and accessors of
  `FunctionAnalyser`),

followed by models of the operations that the header only declares
(`comply`, `box`, `callableBoxingRequired`, `ensureGenericArguments`,
`analyseFunctionCall`, ...), whose bodies are in `FunctionAnalyser.cpp` and are
not embedded here.  Every such model says so in its doc comment.
-/

namespace EmojicodeCompiler

/-! ## `StorageType.hpp` -/

/-- The `enum class StorageType` of `StorageType.hpp`, enumerators in declaration order. -/
inductive StorageType
  | Simple
  | SimpleOptional
  | Box
  /-- Value should be unboxed if possible -/
  | SimpleIfPossible
  deriving DecidableEq, Repr

/-- The underlying integer of an enumerator (C++ numbers them from 0 in declaration order). -/
def StorageType.underlying : StorageType → Nat
  | .Simple => 0
  | .SimpleOptional => 1
  | .Box => 2
  | .SimpleIfPossible => 3

/-- All enumerators of `StorageType`, in declaration order. -/
def StorageType.enumerators : List StorageType :=
  [.Simple, .SimpleOptional, .Box, .SimpleIfPossible]

/-! ## `FnCodeGenerator.hpp`: `LocalVariable` -/

/-- An `llvm::Value *`: the address of a generated value. -/
abbrev ValuePtr := Nat

/-- The null pointer. -/
def nullptr : ValuePtr := 0

/-- The `struct LocalVariable`: `bool isMutable; llvm::Value *value = nullptr;`. -/
structure LocalVariable where
  isMutable : Bool
  value : ValuePtr
  deriving DecidableEq, Repr

/-- The constructor `LocalVariable(bool isMutable, llvm::Value *value)
    : isMutable(isMutable), value(value) {}`. -/
def LocalVariable.new (isMutable : Bool) (value : ValuePtr) : LocalVariable :=
  { isMutable := isMutable, value := value }

/-- The constructor `LocalVariable() = default;`.  `value` takes its default member
initialiser `nullptr`; `isMutable` has no initialiser, so whatever it holds after
construction is passed in as `indeterminate`. -/
def LocalVariable.default (indeterminate : Bool) : LocalVariable :=
  { isMutable := indeterminate, value := nullptr }

/-! ## `FunctionAnalyser.hpp`: constructors and accessors

The types `Function`, `SemanticAnalyser`, `SemanticScoper`, `TypeContext` and
`PathAnalyser` are declared in other headers; the embedding is parametric in them. -/

/-- What the constructors of `FunctionAnalyser` use of the types they mention:
`function->typeContext()`, `SemanticScoper::scoperForFunction(function)` and the
default-constructed `PathAnalyser`.  `Fn` is `Function *`, `Sa` is
`SemanticAnalyser *`. -/
structure Collaborators (Fn Tc Scoper Pa : Type) where
  typeContext : Fn → Tc
  scoperForFunction : Fn → Scoper
  defaultPathAnalyser : Pa

/-- A `std::unique_ptr<T>`: either empty or owning a `T`. -/
abbrev UniquePtr (T : Type) := Option T

/-- The call `std::make_unique<T>(x)`. -/
def makeUnique {T : Type} (x : T) : UniquePtr T := some x

/-- The private data members of `class FunctionAnalyser`, in declaration order. -/
structure FunctionAnalyser (Fn Sa Tc Scoper Pa : Type) where
  pathAnalyser_ : Pa
  scoper_ : UniquePtr Scoper
  typeContext_ : Tc
  function_ : Fn
  analyser_ : Sa

/-- The constructor `FunctionAnalyser(Function *function, SemanticAnalyser *analyser)`. -/
def FunctionAnalyser.new {Fn Sa Tc Scoper Pa : Type} (c : Collaborators Fn Tc Scoper Pa)
    (function : Fn) (analyser : Sa) : FunctionAnalyser Fn Sa Tc Scoper Pa :=
  { pathAnalyser_ := c.defaultPathAnalyser
    scoper_ := makeUnique (c.scoperForFunction function)
    typeContext_ := c.typeContext function
    function_ := function
    analyser_ := analyser }

/-- The constructor `FunctionAnalyser(Function *function,
    std::unique_ptr<SemanticScoper> scoper, SemanticAnalyser *analyser)`. -/
def FunctionAnalyser.newWithScoper {Fn Sa Tc Scoper Pa : Type}
    (c : Collaborators Fn Tc Scoper Pa)
    (function : Fn) (scoper : UniquePtr Scoper) (analyser : Sa) :
    FunctionAnalyser Fn Sa Tc Scoper Pa :=
  { pathAnalyser_ := c.defaultPathAnalyser
    scoper_ := scoper
    typeContext_ := c.typeContext function
    function_ := function
    analyser_ := analyser }

/-- The accessor `SemanticAnalyser* semanticAnalyser() const { return analyser_; }`. -/
def FunctionAnalyser.semanticAnalyser {Fn Sa Tc Scoper Pa : Type}
    (self : FunctionAnalyser Fn Sa Tc Scoper Pa) : Sa := self.analyser_

/-- The accessor `const TypeContext& typeContext() const { return typeContext_; }`. -/
def FunctionAnalyser.typeContext {Fn Sa Tc Scoper Pa : Type}
    (self : FunctionAnalyser Fn Sa Tc Scoper Pa) : Tc := self.typeContext_

/-- The accessor `Function* function() const { return function_; }`. -/
def FunctionAnalyser.function {Fn Sa Tc Scoper Pa : Type}
    (self : FunctionAnalyser Fn Sa Tc Scoper Pa) : Fn := self.function_

/-- The accessor `PathAnalyser& pathAnalyser() { return pathAnalyser_; }`. -/
def FunctionAnalyser.pathAnalyser {Fn Sa Tc Scoper Pa : Type}
    (self : FunctionAnalyser Fn Sa Tc Scoper Pa) : Pa := self.pathAnalyser_

/-- The accessor `SemanticScoper& scoper() { return *scoper_; }`; dereferencing an empty
pointer has no result. -/
def FunctionAnalyser.scoper {Fn Sa Tc Scoper Pa : Type}
    (self : FunctionAnalyser Fn Sa Tc Scoper Pa) : Option Scoper := self.scoper_

/-! ## Semantic types, storage classification and type expectations

`Types/Type.hpp`, `Types/TypeExpectation.hpp`, `AST/ASTExpr.hpp` and
`FunctionAnalyser.cpp` are not among the files above; what follows is modelled from
the specification of the analyser (its sections are cited as §n). -/

/-- A `SourcePosition`: the line a node or diagnostic refers to. -/
abbrev SourcePosition := Nat

/-- Modelled from the spec: the Semantic Type of §3, declared in `Types/Type.hpp` (absent).
§3 lists its shapes: a primitive, a value aggregate, a protocol or generic-parameter type,
a callable signature, or an optional wrapper around another type.  For the two shapes that
have a Simple form, `spareBitPattern` records whether that form leaves a bit pattern unused
(§4.1: "does not already use the full representation space"). -/
inductive SemanticType
  | primitive (name : String) (spareBitPattern : Bool)
  | valueAggregate (name : String) (spareBitPattern : Bool)
  | protocol (name : String)
  | genericParameter (index : Nat)
  | callable (arguments : List SemanticType) (returnType : SemanticType)
  | optional (wrapped : SemanticType)
  deriving Repr

mutual
/-- Structural equality test on Semantic Types (used to compare runtime type tags and by
the example type model). -/
def SemanticType.same : SemanticType → SemanticType → Bool
  | .primitive n s, .primitive n' s' => decide (n = n') && decide (s = s')
  | .valueAggregate n s, .valueAggregate n' s' => decide (n = n') && decide (s = s')
  | .protocol n, .protocol n' => decide (n = n')
  | .genericParameter i, .genericParameter j => decide (i = j)
  | .callable as r, .callable bs r' => SemanticType.sameList as bs && r.same r'
  | .optional w, .optional w' => w.same w'
  | _, _ => false
/-- Pointwise `SemanticType.same` on lists of equal length. -/
def SemanticType.sameList : List SemanticType → List SemanticType → Bool
  | [], [] => true
  | a :: as, b :: bs => a.same b && SemanticType.sameList as bs
  | _, _ => false
end

mutual
/-- Whether a type mentions the generic parameter with index `i` (§4.3). -/
def SemanticType.mentions (i : Nat) : SemanticType → Bool
  | .primitive _ _ => false
  | .valueAggregate _ _ => false
  | .protocol _ => false
  | .genericParameter j => decide (i = j)
  | .callable arguments returnType =>
      SemanticType.mentionsAny i arguments || returnType.mentions i
  | .optional wrapped => wrapped.mentions i
/-- Whether one of the listed types mentions the generic parameter with index `i`. -/
def SemanticType.mentionsAny (i : Nat) : List SemanticType → Bool
  | [] => false
  | t :: ts => t.mentions i || SemanticType.mentionsAny i ts
end

/-- Whether a type is callable-shaped. -/
def SemanticType.isCallable : SemanticType → Bool
  | .callable _ _ => true
  | _ => false

/-- Modelled from the spec: §4.1, "the wrapped type has a spare bit pattern usable as an
absence sentinel (i.e., the wrapped type's Simple form does not already use the full
representation space)".  Types without a Simple form have none. -/
def SemanticType.hasSpareBitPattern : SemanticType → Bool
  | .primitive _ spare => spare
  | .valueAggregate _ spare => spare
  | _ => false

/-- Modelled from the spec: `classify` of §4.1 (in the repository this is a method of the
absent `Type` class).  "Returns `Box` for protocol/generic/callable/non-simplifiable-optional
types, `Simple` for concrete primitive/value-aggregate types, `SimpleOptional` only for
optionals whose wrapped type has a spare bit pattern usable as an absence sentinel." -/
def classify : SemanticType → StorageType
  | .primitive _ _ => .Simple
  | .valueAggregate _ _ => .Simple
  | .protocol _ => .Box
  | .genericParameter _ => .Box
  | .callable _ _ => .Box
  | .optional wrapped => if wrapped.hasSpareBitPattern then .SimpleOptional else .Box

/-- Modelled from the spec: the `Type` value `comply` receives and returns (`Types/Type.hpp`,
absent): a Semantic Type together with the Storage Type the value currently has ("the type
as finally represented", §4.2). -/
structure ExprType where
  semantic : SemanticType
  storage : StorageType
  deriving Repr

/-- Modelled from the spec: the modifiers of a Type Expectation that §3 names. -/
inductive ExpectationModifier
  | boxMandatory
  | simplePreferred
  | genericSlot
  deriving DecidableEq, Repr

/-- Modelled from the spec: the Type Expectation of §3 (`Types/TypeExpectation.hpp`, absent):
"an expected Semantic Type plus zero or more modifiers". -/
structure TypeExpectation where
  type : SemanticType
  modifiers : List ExpectationModifier
  deriving Repr

/-- Modelled from the spec: the storage an expectation asks for.  "Box is mandatory
regardless of simplifiability" asks for `Box`, "a simplified/unboxed form is preferred" is
the request `SimpleIfPossible`, otherwise the expected type is classified by §4.1. -/
def TypeExpectation.request (e : TypeExpectation) : StorageType :=
  if e.modifiers.contains .boxMandatory then .Box
  else if e.modifiers.contains .simplePreferred then .SimpleIfPossible
  else classify e.type

/-- Modelled from the spec: `expectation.simplifyType()`, the required Storage Type of
§4.2 ("determines the required Storage Type via 4.1, respecting any box-mandatory /
simple-preferred modifier").  The request `SimpleIfPossible` is resolved on the value's own
type: "unbox greedily if the value's type permits, otherwise fall back to Box" (§3). -/
def TypeExpectation.simplifyType (e : TypeExpectation) (exprType : ExprType) : StorageType :=
  match e.request with
  | .SimpleIfPossible => classify exprType.semantic
  | s => s

/-! ## Expression nodes and diagnostics -/

/-- Modelled from the spec: the boxing operations a node can carry besides "none" (§3):
box, unbox, optional-wrap, optional-unwrap, callable-adapt. -/
inductive BoxingOperation
  | box
  | unbox
  | optionalWrap
  | optionalUnwrap
  | callableAdapt
  deriving DecidableEq, Repr

/-- Modelled from the spec: the Expression Node of §3 (`AST/ASTExpr.hpp`, absent).  A node
is an analysed expression carrying its type, or a wrapping node that realises one boxing
operation on the node it wraps and carries the type after that operation. -/
inductive ASTExpr
  | analysed (position : SourcePosition) (type : ExprType)
  | conversion (operation : BoxingOperation) (type : ExprType) (inner : ASTExpr)
  deriving Repr

/-- The type a node carries. -/
def ASTExpr.type : ASTExpr → ExprType
  | .analysed _ t => t
  | .conversion _ t _ => t

/-- The source position of the expression a node stands for. -/
def ASTExpr.position : ASTExpr → SourcePosition
  | .analysed p _ => p
  | .conversion _ _ inner => inner.position

/-- The boxing operations wrapped around the analysed expression, outermost first. -/
def ASTExpr.operations : ASTExpr → List BoxingOperation
  | .analysed _ _ => []
  | .conversion op _ inner => op :: inner.operations

/-- Modelled from the spec: the error kinds of §7. -/
inductive DiagnosticKind
  | typeMismatch
  | inferenceFailure
  | accessViolation
  | deprecatedUse
  deriving DecidableEq, Repr

/-- Modelled from the spec: a diagnostic record (§6): its kind and source position. -/
structure Diagnostic where
  kind : DiagnosticKind
  position : SourcePosition
  deriving DecidableEq, Repr

/-! ## The boxing conversion engine (§4.2)

`FunctionAnalyser.hpp` declares `comply`, `box`, `callableBox`,
`callableBoxingRequired`, `boxToBox`, `boxToSimple` and `boxToSimpleOptional`; their
bodies are in `FunctionAnalyser.cpp` (absent).  A function that in C++ mutates `*node`
and `exprType` in place returns the new type and node here. -/

/-- Whether the Storage Types (§4.1) of two argument lists differ at some corresponding
position. -/
def argumentStorageMismatch (expected actual : List SemanticType) : Bool :=
  (expected.zip actual).any fun p => classify p.1 != classify p.2

/-- Modelled from the spec: `FunctionAnalyser::callableBoxingRequired`, body absent.
Header: "Returns true if exprType and expectation are callables and there is a mismatch
between the argument or return StorageTypes."  §4.2a: "true iff both are callable-shaped
and there exists a mismatch between any corresponding argument's or the return value's
Storage Type under 4.1". -/
def callableBoxingRequired (expectation : TypeExpectation) (exprType : ExprType) : Bool :=
  match expectation.type, exprType.semantic with
  | .callable expectedArguments expectedReturn, .callable arguments returnType =>
      argumentStorageMismatch expectedArguments arguments ||
        classify expectedReturn != classify returnType
  | _, _ => false

/-- Modelled from the spec: `FunctionAnalyser::callableBox`, body absent.  Header: "Callable
boxes the value if callableBoxingRequired() returns true."  §4.2a: it "wraps the callable
value in an adapter closure" so that the value has the expected signature. -/
def callableBox (exprType : ExprType) (expectation : TypeExpectation) (node : ASTExpr) :
    ExprType × ASTExpr :=
  if callableBoxingRequired expectation exprType then
    let adapted : ExprType := { exprType with semantic := expectation.type }
    (adapted, .conversion .callableAdapt adapted node)
  else (exprType, node)

/-- Modelled from the spec: `FunctionAnalyser::boxToBox`, body absent.  §4.2b: "box-to-box
conversions only change the meta tag, never the embedded value; used when widening to a
less specific boxed protocol/generic type".  The node is not wrapped. -/
def boxToBox (exprType : ExprType) (expectation : TypeExpectation) (node : ASTExpr) :
    ExprType × ASTExpr :=
  ({ exprType with semantic := expectation.type }, node)

/-- Modelled from the spec: `FunctionAnalyser::boxToSimple`, body absent.  §4.2: "Box →
Simple: unbox (extract the embedded value, discarding the type tag)". -/
def boxToSimple (exprType : ExprType) (node : ASTExpr) : ExprType × ASTExpr :=
  let unboxed : ExprType := { exprType with storage := .Simple }
  (unboxed, .conversion .unbox unboxed node)

/-- Modelled from the spec: `FunctionAnalyser::boxToSimpleOptional`, body absent.  §4.2b:
"unboxes into the sentinel-bearing representation, additionally inserting the no-value
test/construction logic appropriate to an optional unbox". -/
def boxToSimpleOptional (exprType : ExprType) (_expectation : TypeExpectation)
    (node : ASTExpr) : ExprType × ASTExpr :=
  let unboxed : ExprType := { exprType with storage := .SimpleOptional }
  (unboxed, .conversion .unbox unboxed node)

/-- The node that realises `operation` on `node`, leaving the value in storage `target`. -/
def insertConversion (operation : BoxingOperation) (target : StorageType)
    (exprType : ExprType) (node : ASTExpr) : ExprType × ASTExpr :=
  let converted : ExprType := { exprType with storage := target }
  (converted, .conversion operation converted node)

/-- Modelled from the spec: `FunctionAnalyser::box`, body absent.  Header: "Boxes or unboxes
the value to the StorageType specified by expectation.simplifyType()".  §4.2: if the current
storage differs from the required one the node is wrapped with the minimal conversion:
Box → Simple unboxes, Simple/SimpleOptional → Box allocates a box, Simple ↔ SimpleOptional
wraps with or tests for the absence sentinel; Box → Box and Box → SimpleOptional are the
sub-algorithms of §4.2b.  `SimpleIfPossible` is a request, not a representation a value can
be in, so no conversion path starts from it: a type mismatch (§4.2, failure modes). -/
def box (exprType : ExprType) (expectation : TypeExpectation) (node : ASTExpr) :
    Except Diagnostic (ExprType × ASTExpr) :=
  match exprType.storage, expectation.simplifyType exprType with
  | .Box, .Box => .ok (boxToBox exprType expectation node)
  | .Box, .Simple => .ok (boxToSimple exprType node)
  | .Box, .SimpleOptional => .ok (boxToSimpleOptional exprType expectation node)
  | .Simple, .Box => .ok (insertConversion .box .Box exprType node)
  | .SimpleOptional, .Box => .ok (insertConversion .box .Box exprType node)
  | .Simple, .SimpleOptional =>
      .ok (insertConversion .optionalWrap .SimpleOptional exprType node)
  | .SimpleOptional, .Simple =>
      .ok (insertConversion .optionalUnwrap .Simple exprType node)
  | .Simple, .Simple => .ok (exprType, node)
  | .SimpleOptional, .SimpleOptional => .ok (exprType, node)
  | _, _ => .error { kind := .typeMismatch, position := node.position }

/-- Modelled from the spec: `FunctionAnalyser::comply`, body absent.  §4.2: the value is
brought to the required Storage Type by `box`, and "callable-shaped values additionally go
through callable boxing (4.2a) when argument or return storage types of the value's
signature don't match the expectation's signature, independent of the above box/unbox
path".  The header comment also names dereferencing and temporarily storing the value; the
specification gives no rule for either, and they are not modelled. -/
def comply (exprType : ExprType) (expectation : TypeExpectation) (node : ASTExpr) :
    Except Diagnostic (ExprType × ASTExpr) :=
  let adapted := callableBox exprType expectation node
  box adapted.1 expectation adapted.2

/-! ## Runtime representations (§3, §4.2, §4.5) -/

/-- The machine words of a value in its native representation. -/
abbrev Payload := List Nat

/-- Modelled from the spec: the physical representations of §3.  A Simple value is its
native words; a SimpleOptional value is the native words or the absence sentinel; a Box is
"a runtime type tag (meta pointer) plus an embedded value slot", and a box without a tag
holds no value (§4.5, `getHasBoxNoValue`). -/
inductive RuntimeValue
  | simple (payload : Payload)
  | simpleOptional (payload : Option Payload)
  | boxed (tag : Option SemanticType) (slot : Payload)
  deriving Repr

/-- Modelled from the spec: what generated code does for one boxing operation (§4.2).
`staticType` is the type of the wrapped expression, `target` the type after the operation.
Boxing stores "a meta-type tag for the expression's static type plus the value"; unboxing
extracts the embedded value and "fails at generation time if the boxed value's dynamic type
does not match"; the optional operations wrap with and test for the absence sentinel; the
callable adapter converts at call time and leaves the value's own representation alone. -/
def applyOperation (operation : BoxingOperation) (staticType target : ExprType) :
    RuntimeValue → Option RuntimeValue
  | .simple payload =>
      match operation with
      | .box => some (.boxed (some staticType.semantic) payload)
      | .optionalWrap => some (.simpleOptional (some payload))
      | .callableAdapt => some (.simple payload)
      | _ => none
  | .simpleOptional payload =>
      match operation, payload with
      | .box, some words => some (.boxed (some staticType.semantic) words)
      | .box, none => some (.boxed none [])
      | .optionalUnwrap, some words => some (.simple words)
      | .callableAdapt, _ => some (.simpleOptional payload)
      | _, _ => none
  | .boxed tag slot =>
      match operation, tag with
      | .unbox, some dynamicType =>
          if dynamicType.same target.semantic then
            match target.storage with
            | .Simple => some (.simple slot)
            | .SimpleOptional => some (.simpleOptional (some slot))
            | _ => none
          else none
      | .unbox, none =>
          match target.storage with
          | .SimpleOptional => some (.simpleOptional none)
          | _ => none
      | .callableAdapt, _ => some (.boxed tag slot)
      | _, _ => none

/-- The value a node produces at run time when the analysed expression it wraps produces
`value`: the wrapped operations are applied innermost first. -/
def ASTExpr.evaluate (value : RuntimeValue) : ASTExpr → Option RuntimeValue
  | .analysed _ _ => some value
  | .conversion operation target inner =>
      match inner.evaluate value with
      | some v => applyOperation operation inner.type target v
      | none => none

/-! ## Generic argument inference and call analysis (§4.3, §4.4)

`Functions/Function.hpp`, `AST/ASTExpr.hpp` (`ASTArguments`), `CommonTypeFinder` and the
bodies of `ensureGenericArguments`, `expect`, `checkFunctionUse`, `deprecatedWarning` and
`analyseFunctionCall` are absent. -/

/-- Modelled from the spec: what the call analyser reads of a `Function`
(`Functions/Function.hpp`, absent): the number of generic parameters, the declared parameter
types (which mention generic parameters by index), the declared return type and whether the
function is marked deprecated. -/
structure Function where
  name : String
  genericParameterCount : Nat
  parameters : List SemanticType
  returnType : SemanticType
  deprecated : Bool
  deriving Repr

/-- Modelled from the spec: the `ASTArguments` node of a call (absent): the explicit type
arguments, if any, and the nodes of the actual arguments. -/
structure ASTArguments where
  position : SourcePosition
  genericArguments : List SemanticType
  arguments : List ASTExpr
  deriving Repr

/-- Modelled from the spec: the services the analyser consumes from its collaborators (§1,
§6): the subtyping test (`compatible a b`: a value of type `a` is acceptable where `b` is
expected), the least-common-supertype computation, generic substitution, the constraint
check of explicit type arguments, and the visibility rules (`mayAccess f`: the calling
context may access `f`). -/
structure TypeModel where
  compatible : SemanticType → SemanticType → Bool
  commonSupertype : SemanticType → SemanticType → Option SemanticType
  substitute : List SemanticType → SemanticType → SemanticType
  satisfiesConstraints : Function → List SemanticType → Bool
  mayAccess : Function → Bool

/-- Modelled from the spec: the Common-Type Accumulator of §3 (`CommonTypeFinder`, absent):
empty until a first type is observed, thereafter the common supertype of the types observed
so far. -/
structure CommonTypeFinder where
  commonType : Option SemanticType
  deriving Repr

/-- A freshly reset accumulator ("it is reset per call site"). -/
def CommonTypeFinder.empty : CommonTypeFinder := { commonType := none }

/-- Modelled from the spec: the accumulator hook of `expectType` (§4.2): "the actual type
observed is folded into" the accumulator.  There is no result when the type observed and the
types accumulated so far have no common supertype (§4.3). -/
def CommonTypeFinder.addType (model : TypeModel) (finder : CommonTypeFinder)
    (observed : SemanticType) : Option CommonTypeFinder :=
  match finder.commonType with
  | none => some { commonType := some observed }
  | some common =>
      match model.commonSupertype common observed with
      | some supertype => some { commonType := some supertype }
      | none => none

/-- Runs an accumulator over a sequence of observed types. -/
def CommonTypeFinder.addTypes (model : TypeModel) :
    CommonTypeFinder → List SemanticType → Option CommonTypeFinder
  | finder, [] => some finder
  | finder, observed :: rest =>
      match finder.addType model observed with
      | some next => CommonTypeFinder.addTypes model next rest
      | none => none

/-- The types of the actual arguments at the positions whose declared parameter type
mentions the generic parameter `i` (§4.3), in argument order. -/
def observedTypes (i : Nat) : List SemanticType → List ASTExpr → List SemanticType
  | declared :: parameters, argument :: arguments =>
      if declared.mentions i then
        argument.type.semantic :: observedTypes i parameters arguments
      else observedTypes i parameters arguments
  | _, _ => []

/-- Modelled from the spec: inference of one generic parameter (§4.3): the accumulator is
run "over every actual argument position whose declared parameter type mentions that generic
parameter"; there is no result when the parameter "is never referenced by any argument
position" or when "the accumulated candidates have no common supertype". -/
def inferGenericArgument (model : TypeModel) (function : Function)
    (arguments : List ASTExpr) (i : Nat) : Option SemanticType :=
  match CommonTypeFinder.addTypes model CommonTypeFinder.empty
      (observedTypes i function.parameters arguments) with
  | some finder => finder.commonType
  | none => none

/-- Inference of the generic parameters `i, i + 1, ..., i + count - 1`, all or nothing. -/
def inferGenericArgumentsFrom (model : TypeModel) (function : Function)
    (arguments : List ASTExpr) : Nat → Nat → Option (List SemanticType)
  | _, 0 => some []
  | i, count + 1 =>
      match inferGenericArgument model function arguments i with
      | some inferred =>
          match inferGenericArgumentsFrom model function arguments (i + 1) count with
          | some rest => some (inferred :: rest)
          | none => none
      | none => none

/-- Modelled from the spec: `FunctionAnalyser::ensureGenericArguments`, body absent.  Header:
"Ensures that node has the required number of generic arguments for a call to function.  If
none are provided but function expects generic arguments, this method tries to infer them."
§4.3: explicit type arguments matching the generic parameter count are validated and used
as-is; if none are supplied and the function is generic, one type per parameter is inferred,
failing with an inference failure.  The spec names no failure kind for explicit type
arguments that are rejected; a type mismatch is reported for them. -/
def ensureGenericArguments (model : TypeModel) (node : ASTArguments) (_type : SemanticType)
    (function : Function) : Except Diagnostic ASTArguments :=
  if node.genericArguments.isEmpty then
    if function.genericParameterCount = 0 then .ok node
    else
      match inferGenericArgumentsFrom model function node.arguments 0
          function.genericParameterCount with
      | some inferred => .ok { node with genericArguments := inferred }
      | none => .error { kind := .inferenceFailure, position := node.position }
  else if node.genericArguments.length = function.genericParameterCount ∧
      model.satisfiesConstraints function node.genericArguments = true then .ok node
  else .error { kind := .typeMismatch, position := node.position }

/-- The primitive type `Int`. -/
def intType : SemanticType := .primitive "Int" true

/-- The value type `String`. -/
def stringType : SemanticType := .valueAggregate "String" false

/-- The protocol `Any`, supertype of every type. -/
def anyType : SemanticType := .protocol "Any"

/-- The callable type `(Int) -> Int`: argument and return value are `Simple`. -/
def intToInt : SemanticType := .callable [intType] intType

/-- The callable type `(Any) -> Int`: the argument is a protocol value, hence `Box`. -/
def anyToInt : SemanticType := .callable [anyType] intType

mutual
/-- Replaces every generic parameter by the type argument with its index. -/
def substituteGeneric (genericArguments : List SemanticType) : SemanticType → SemanticType
  | .primitive n s => .primitive n s
  | .valueAggregate n s => .valueAggregate n s
  | .protocol n => .protocol n
  | .genericParameter i => (genericArguments.get? i).getD (.genericParameter i)
  | .callable arguments returnType =>
      .callable (substituteGenericList genericArguments arguments)
        (substituteGeneric genericArguments returnType)
  | .optional wrapped => .optional (substituteGeneric genericArguments wrapped)
/-- Applies `substituteGeneric` to every listed type. -/
def substituteGenericList (genericArguments : List SemanticType) :
    List SemanticType → List SemanticType
  | [] => []
  | t :: ts => substituteGeneric genericArguments t :: substituteGenericList genericArguments ts
end

/-- A small type model: every type is a subtype of itself and of `Any`; the least common
supertype of two different types is `Any`; everything is accessible. -/
def exampleModel : TypeModel where
  compatible a b := a.same b || b.same anyType
  commonSupertype a b := some (if a.same b then a else anyType)
  substitute := substituteGeneric
  satisfiesConstraints _ _ := true
  mayAccess _ := true

/-- The generic function `f<T>(a: T, b: T) -> T`. -/
def genericPair : Function where
  name := "f"
  genericParameterCount := 1
  parameters := [.genericParameter 0, .genericParameter 0]
  returnType := .genericParameter 0
  deprecated := false

/-- The generic function `g<T, U>(a: T) -> Int`, whose parameter `U` appears in no argument
position. -/
def genericUnused : Function where
  name := "g"
  genericParameterCount := 2
  parameters := [.genericParameter 0]
  returnType := intType
  deprecated := false

/-- An analysed expression at line `p` whose value has type `t` in its classified storage. -/
def argumentOfType (p : SourcePosition) (t : SemanticType) : ASTExpr :=
  .analysed p { semantic := t, storage := classify t }

/-- A call at line `p` without explicit type arguments. -/
def callWith (p : SourcePosition) (arguments : List ASTExpr) : ASTArguments :=
  { position := p, genericArguments := [], arguments := arguments }

/-! ## Specification predicates -/

/-- The laws that make `commonSupertype` compute least common supertypes with respect to
the subtyping test: subtyping is reflexive and transitive, and a common supertype of two
types is above both and below every type that is above both. -/
structure TypeModel.Lawful (model : TypeModel) : Prop where
  refl : ∀ a, model.compatible a a = true
  trans : ∀ a b c, model.compatible a b = true → model.compatible b c = true →
    model.compatible a c = true
  left : ∀ a b u, model.commonSupertype a b = some u → model.compatible a u = true
  right : ∀ a b u, model.commonSupertype a b = some u → model.compatible b u = true
  least : ∀ a b u w, model.commonSupertype a b = some u → model.compatible a w = true →
    model.compatible b w = true → model.compatible u w = true

/-- The type `T` is a least common supertype of the types `observed`: every one of them is a
subtype of `T`, and `T` is a subtype of every type they all are subtypes of. -/
def IsLeastCommonSupertype (model : TypeModel) (T : SemanticType)
    (observed : List SemanticType) : Prop :=
  (∀ a, a ∈ observed → model.compatible a T = true) ∧
  ∀ U, (∀ a, a ∈ observed → model.compatible a U = true) → model.compatible T U = true

/-! ## Theorems -/

/-- C3: `StorageType` is a closed enumeration of exactly four pairwise distinct values:
every value is one of `Simple`, `SimpleOptional`, `Box`, `SimpleIfPossible`, no two of
these are equal (their underlying integers are 0, 1, 2, 3), and the list of enumerators
has four entries without repetition. -/
theorem storageType_closed_enumeration :
    (∀ s : StorageType, s = StorageType.Simple ∨ s = StorageType.SimpleOptional ∨
        s = StorageType.Box ∨ s = StorageType.SimpleIfPossible) ∧
    StorageType.Simple ≠ StorageType.SimpleOptional ∧
    StorageType.Simple ≠ StorageType.Box ∧
    StorageType.Simple ≠ StorageType.SimpleIfPossible ∧
    StorageType.SimpleOptional ≠ StorageType.Box ∧
    StorageType.SimpleOptional ≠ StorageType.SimpleIfPossible ∧
    StorageType.Box ≠ StorageType.SimpleIfPossible ∧
    StorageType.enumerators.map StorageType.underlying = [0, 1, 2, 3] ∧
    StorageType.enumerators.Nodup ∧ StorageType.enumerators.length = 4 ∧
    (∀ s : StorageType, s ∈ StorageType.enumerators) := by
  refine ⟨?_, by decide, by decide, by decide, by decide, by decide, by decide,
    by decide, by decide, by decide, ?_⟩
  · intro s; cases s <;> simp
  · intro s; cases s <;> simp [StorageType.enumerators]

/-- C8: the constructor `LocalVariable(m, v)` stores both components unchanged:
`isMutable` is `m` and `value` is `v`. -/
theorem localVariable_new_stores (m : Bool) (v : ValuePtr) :
    (LocalVariable.new m v).isMutable = m ∧ (LocalVariable.new m v).value = v :=
  ⟨rfl, rfl⟩

/-- C10: a default-constructed `LocalVariable` has a null `value`, whatever its
`isMutable` holds, and therefore differs from every `LocalVariable(m, v)` built with a
non-null `v`. -/
theorem localVariable_default_null (b m : Bool) (v : ValuePtr) (hv : v ≠ nullptr) :
    (LocalVariable.default b).value = nullptr ∧
    (LocalVariable.default b).value ≠ (LocalVariable.new m v).value ∧
    LocalVariable.default b ≠ LocalVariable.new m v := by
  refine ⟨rfl, fun h => hv h.symm, fun h => hv ?_⟩
  have h2 := congrArg LocalVariable.value h
  exact h2.symm

/-- Witness for C10 at `isMutable = true`, `m = true`, `v = 4096`: even when the flags
agree the null handle tells the two apart. -/
theorem localVariable_default_null_witness :
    (4096 : ValuePtr) ≠ nullptr ∧
    (LocalVariable.default true).value = nullptr ∧
    (LocalVariable.default true).value ≠ (LocalVariable.new true 4096).value ∧
    LocalVariable.default true ≠ LocalVariable.new true 4096 :=
  ⟨by decide, localVariable_default_null true true 4096 (by decide)⟩

/-- C9: both constructors build an analyser whose `function()` is `f`, whose
`semanticAnalyser()` is `a` and whose `typeContext()` is `f`'s type context; the second
constructor's scoper is exactly the `s` passed in, the first one's is a fresh
`scoperForFunction(f)`, and replacing the scoper of the second construction by that
fresh scoper gives the first construction: they differ in the scoper only. -/
theorem functionAnalyser_constructors {Fn Sa Tc Scoper Pa : Type}
    (c : Collaborators Fn Tc Scoper Pa) (f : Fn) (a : Sa) (s : UniquePtr Scoper) :
    (FunctionAnalyser.new c f a).function = f ∧
    (FunctionAnalyser.new c f a).semanticAnalyser = a ∧
    (FunctionAnalyser.new c f a).typeContext = c.typeContext f ∧
    (FunctionAnalyser.newWithScoper c f s a).function = f ∧
    (FunctionAnalyser.newWithScoper c f s a).semanticAnalyser = a ∧
    (FunctionAnalyser.newWithScoper c f s a).typeContext = c.typeContext f ∧
    (FunctionAnalyser.newWithScoper c f s a).scoper_ = s ∧
    (FunctionAnalyser.new c f a).scoper_ = makeUnique (c.scoperForFunction f) ∧
    (FunctionAnalyser.new c f a).pathAnalyser = (FunctionAnalyser.newWithScoper c f s a).pathAnalyser ∧
    FunctionAnalyser.new c f a =
      { FunctionAnalyser.newWithScoper c f s a with
        scoper_ := makeUnique (c.scoperForFunction f) } :=
  ⟨rfl, rfl, rfl, rfl, rfl, rfl, rfl, rfl, rfl, rfl⟩

/-! ### Helper lemmas on the storage model -/

theorem classify_cases (t : SemanticType) :
    classify t = .Simple ∨ classify t = .SimpleOptional ∨ classify t = .Box := by
  cases t <;> simp [classify]

theorem classify_ne_simpleIfPossible (t : SemanticType) :
    classify t ≠ .SimpleIfPossible := by
  rcases classify_cases t with h | h | h <;> rw [h] <;> decide

theorem simplifyType_cases (e : TypeExpectation) (x : ExprType) :
    e.simplifyType x = .Simple ∨ e.simplifyType x = .SimpleOptional ∨
      e.simplifyType x = .Box := by
  unfold TypeExpectation.simplifyType
  split
  · exact classify_cases _
  · rename_i s hs
    unfold TypeExpectation.request at hs ⊢
    split
    · simp
    · split
      · rename_i h1 h2
        exact absurd (by rw [if_neg h1, if_pos h2]) hs
      · exact classify_cases _

theorem simplifyType_ne_simpleIfPossible (e : TypeExpectation) (x : ExprType) :
    e.simplifyType x ≠ .SimpleIfPossible := by
  rcases simplifyType_cases e x with h | h | h <;> rw [h] <;> decide

theorem isCallable_of_classify_simple (t : SemanticType) (h : classify t = .Simple) :
    t.isCallable = false := by
  cases t <;> simp_all [classify, SemanticType.isCallable]

mutual
theorem SemanticType.same_iff : ∀ a b : SemanticType, a.same b = true ↔ a = b
  | .primitive n s, b => by cases b <;> simp [SemanticType.same]
  | .valueAggregate n s, b => by cases b <;> simp [SemanticType.same]
  | .protocol n, b => by cases b <;> simp [SemanticType.same]
  | .genericParameter i, b => by cases b <;> simp [SemanticType.same]
  | .callable as r, b => by
      cases b <;>
        simp [SemanticType.same, SemanticType.sameList_iff as, SemanticType.same_iff r]
  | .optional w, b => by cases b <;> simp [SemanticType.same, SemanticType.same_iff w]
theorem SemanticType.sameList_iff : ∀ as bs : List SemanticType,
    SemanticType.sameList as bs = true ↔ as = bs
  | [], bs => by cases bs <;> simp [SemanticType.sameList]
  | a :: as, bs => by
      cases bs <;>
        simp [SemanticType.sameList, SemanticType.same_iff a, SemanticType.sameList_iff as]
end

theorem SemanticType.same_self (a : SemanticType) : a.same a = true :=
  (SemanticType.same_iff a a).mpr rfl

theorem argumentStorageMismatch_iff (expected actual : List SemanticType) :
    argumentStorageMismatch expected actual = true ↔
      ∃ (i : Nat) (a b : SemanticType),
        expected[i]? = some a ∧ actual[i]? = some b ∧ classify a ≠ classify b := by
  induction expected generalizing actual with
  | nil => simp [argumentStorageMismatch]
  | cons x xs ih =>
    cases actual with
    | nil => simp [argumentStorageMismatch]
    | cons y ys =>
      have ih' := ih ys
      simp only [argumentStorageMismatch, List.zip_cons_cons, List.any_cons,
        Bool.or_eq_true, bne_iff_ne, ne_eq] at ih' ⊢
      constructor
      · rintro (h | h)
        · exact ⟨0, x, y, by simp, by simp, h⟩
        · obtain ⟨i, a, b, h1, h2, h3⟩ := ih'.mp h
          exact ⟨i + 1, a, b, by simpa using h1, by simpa using h2, h3⟩
      · rintro ⟨i, a, b, h1, h2, h3⟩
        cases i with
        | zero =>
          simp at h1 h2
          subst h1 h2
          exact Or.inl h3
        | succ j =>
          exact Or.inr (ih'.mpr ⟨j, a, b, by simpa using h1, by simpa using h2, h3⟩)

/-! ### Claims on the storage model and the boxing engine -/

/-- C2: `classify` is a total, deterministic function on Semantic Types: every Semantic Type
has exactly one classification, which is one of the final representations `Simple`,
`SimpleOptional` or `Box`, never the request value `SimpleIfPossible`. -/
theorem classify_total_final (t : SemanticType) :
    (∃! s : StorageType, classify t = s) ∧
    (classify t = .Simple ∨ classify t = .SimpleOptional ∨ classify t = .Box) ∧
    classify t ≠ .SimpleIfPossible :=
  ⟨⟨classify t, rfl, fun _ h => h.symm⟩, classify_cases t, classify_ne_simpleIfPossible t⟩

/-- C4: `callableBoxingRequired` returns true if and only if both the expectation's type and
the expression type are callables and the Storage Type of at least one corresponding
argument, or of the return value, differs between the two signatures; in particular it
returns false whenever either one is not a callable. -/
theorem callableBoxingRequired_iff (expectation : TypeExpectation) (exprType : ExprType) :
    (callableBoxingRequired expectation exprType = true ↔
      ∃ expectedArguments expectedReturn arguments returnType,
        expectation.type = .callable expectedArguments expectedReturn ∧
        exprType.semantic = .callable arguments returnType ∧
        ((∃ (i : Nat) (a b : SemanticType),
            expectedArguments[i]? = some a ∧ arguments[i]? = some b ∧
            classify a ≠ classify b) ∨
          classify expectedReturn ≠ classify returnType)) ∧
    ((expectation.type.isCallable = false ∨ exprType.semantic.isCallable = false) →
      callableBoxingRequired expectation exprType = false) := by
  constructor
  · unfold callableBoxingRequired
    split
    · rename_i ea er ta tr h1 h2
      simp only [h1, h2, Bool.or_eq_true, bne_iff_ne, ne_eq, argumentStorageMismatch_iff,
        SemanticType.callable.injEq]
      constructor
      · intro h
        exact ⟨ea, er, ta, tr, ⟨rfl, rfl⟩, ⟨rfl, rfl⟩, h⟩
      · rintro ⟨ea', er', ta', tr', ⟨rfl, rfl⟩, ⟨rfl, rfl⟩, h⟩
        exact h
    · rename_i hne
      simp only [Bool.false_eq_true, false_iff]
      rintro ⟨ea, er, ta, tr, h1, h2, -⟩
      exact hne ea er ta tr h1 h2
  · intro h
    unfold callableBoxingRequired
    split
    · rename_i ea er ta tr h1 h2
      simp [h1, h2, SemanticType.isCallable] at h
    · rfl

/-- Witness for C4: a boxed `(Any) -> Int` value against the expectation `(Int) -> Int`
needs callable boxing, because the argument is `Box` on one side and `Simple` on the other;
against the non-callable expectation `Int` it does not. -/
theorem callableBoxingRequired_iff_witness :
    callableBoxingRequired { type := intToInt, modifiers := [] }
      { semantic := anyToInt, storage := .Box } = true ∧
    callableBoxingRequired { type := intType, modifiers := [] }
      { semantic := anyToInt, storage := .Box } = false :=
  ⟨(callableBoxingRequired_iff { type := intToInt, modifiers := [] }
      { semantic := anyToInt, storage := .Box }).1.mpr
      ⟨[intType], intType, [anyType], intType, rfl, rfl,
        Or.inl ⟨0, intType, anyType, rfl, rfl, by decide⟩⟩,
    (callableBoxingRequired_iff { type := intType, modifiers := [] }
      { semantic := anyToInt, storage := .Box }).2 (Or.inl rfl)⟩

/-- C6: for a Simple-representable type `T` and a node of type `T` held as `Simple` that
produces the value `v`, complying with a box-mandatory expectation boxes the node (the box
carries the tag of `T` and the words of `v`), and complying the boxed node with a plain
expectation of `T` unboxes it again; the node so obtained produces exactly `v`. -/
theorem box_unbox_roundtrip (T : SemanticType) (v : Payload) (base : RuntimeValue)
    (node : ASTExpr) (hT : classify T = .Simple)
    (hnode : node.type = { semantic := T, storage := .Simple })
    (hv : node.evaluate base = some (.simple v)) :
    ∃ boxedNode unboxedNode : ASTExpr,
      comply node.type { type := T, modifiers := [.boxMandatory] } node =
        .ok ({ semantic := T, storage := .Box }, boxedNode) ∧
      boxedNode.evaluate base = some (.boxed (some T) v) ∧
      comply { semantic := T, storage := .Box } { type := T, modifiers := [] } boxedNode =
        .ok ({ semantic := T, storage := .Simple }, unboxedNode) ∧
      unboxedNode.operations = .unbox :: .box :: node.operations ∧
      unboxedNode.evaluate base = some (.simple v) := by
  have hcall := isCallable_of_classify_simple T hT
  have hreq1 : ∀ m, callableBoxingRequired { type := T, modifiers := m }
      { semantic := T, storage := .Simple } = false := by
    intro m
    cases T <;> simp_all [callableBoxingRequired, SemanticType.isCallable]
  have hreq2 : ∀ m, callableBoxingRequired { type := T, modifiers := m }
      { semantic := T, storage := .Box } = false := by
    intro m
    cases T <;> simp_all [callableBoxingRequired, SemanticType.isCallable]
  refine ⟨.conversion .box { semantic := T, storage := .Box } node,
    .conversion .unbox { semantic := T, storage := .Simple }
      (.conversion .box { semantic := T, storage := .Box } node), ?_, ?_, ?_, ?_, ?_⟩
  · rw [hnode]
    simp [comply, callableBox, hreq1, box, TypeExpectation.simplifyType,
      TypeExpectation.request, insertConversion]
  · simp [ASTExpr.evaluate, hv, applyOperation, hnode]
  · simp [comply, callableBox, hreq2, box, TypeExpectation.simplifyType,
      TypeExpectation.request, hT, boxToSimple]
  · simp [ASTExpr.operations]
  · have ht : ∀ (op : BoxingOperation) (t : ExprType) (inner : ASTExpr),
        (ASTExpr.conversion op t inner).type = t := fun _ _ _ => rfl
    simp [ASTExpr.evaluate, hv, applyOperation, hnode, ht, SemanticType.same_self]

/-- Witness for C6 with `T` the primitive `Int` and the one-word value `42`. -/
theorem box_unbox_roundtrip_witness :
    ∃ boxedNode unboxedNode : ASTExpr,
      comply (ASTExpr.analysed 3 { semantic := .primitive "Int" true, storage := .Simple }).type
          { type := .primitive "Int" true, modifiers := [.boxMandatory] }
          (.analysed 3 { semantic := .primitive "Int" true, storage := .Simple }) =
        .ok ({ semantic := .primitive "Int" true, storage := .Box }, boxedNode) ∧
      boxedNode.evaluate (.simple [42]) =
        some (.boxed (some (.primitive "Int" true)) [42]) ∧
      comply { semantic := .primitive "Int" true, storage := .Box }
          { type := .primitive "Int" true, modifiers := [] } boxedNode =
        .ok ({ semantic := .primitive "Int" true, storage := .Simple }, unboxedNode) ∧
      unboxedNode.operations = .unbox :: .box ::
        (ASTExpr.analysed 3
          { semantic := .primitive "Int" true, storage := .Simple }).operations ∧
      unboxedNode.evaluate (.simple [42]) = some (.simple [42]) :=
  box_unbox_roundtrip (.primitive "Int" true) [42] (.simple [42])
    (.analysed 3 { semantic := .primitive "Int" true, storage := .Simple }) rfl rfl rfl

/-! ### Generic argument inference -/

theorem addTypes_least (model : TypeModel) (hlaw : model.Lawful)
    (observed : List SemanticType) :
    ∀ (finder result : CommonTypeFinder) (c : SemanticType),
      finder.commonType = some c →
      CommonTypeFinder.addTypes model finder observed = some result →
      ∃ T, result.commonType = some T ∧ model.compatible c T = true ∧
        (∀ a, a ∈ observed → model.compatible a T = true) ∧
        ∀ U, model.compatible c U = true →
          (∀ a, a ∈ observed → model.compatible a U = true) → model.compatible T U = true := by
  induction observed with
  | nil =>
    intro finder result c hc h
    simp only [CommonTypeFinder.addTypes, Option.some.injEq] at h
    subst h
    exact ⟨c, hc, hlaw.refl c, by simp, fun U hU _ => hU⟩
  | cons x xs ih =>
    intro finder result c hc h
    simp only [CommonTypeFinder.addTypes, CommonTypeFinder.addType, hc] at h
    cases hsup : model.commonSupertype c x with
    | none => simp [hsup] at h
    | some u =>
      simp only [hsup] at h
      obtain ⟨T, hT, huT, hall, hleast⟩ := ih { commonType := some u } result u rfl h
      refine ⟨T, hT, hlaw.trans _ _ _ (hlaw.left _ _ _ hsup) huT, ?_, ?_⟩
      · intro a ha
        rcases List.mem_cons.mp ha with rfl | ha
        · exact hlaw.trans _ _ _ (hlaw.right _ _ _ hsup) huT
        · exact hall a ha
      · intro U hcU hU
        apply hleast U
        · exact hlaw.least _ _ _ _ hsup hcU (hU x (List.mem_cons_self _ _))
        · intro a ha
          exact hU a (List.mem_cons_of_mem _ ha)

theorem inferGenericArgument_least (model : TypeModel) (hlaw : model.Lawful)
    (function : Function) (arguments : List ASTExpr) (i : Nat) (T : SemanticType)
    (h : inferGenericArgument model function arguments i = some T) :
    observedTypes i function.parameters arguments ≠ [] ∧
    IsLeastCommonSupertype model T (observedTypes i function.parameters arguments) := by
  unfold inferGenericArgument at h
  cases hobs : observedTypes i function.parameters arguments with
  | nil => simp [hobs, CommonTypeFinder.addTypes, CommonTypeFinder.empty] at h
  | cons x xs =>
    rw [hobs] at h
    simp only [CommonTypeFinder.addTypes, CommonTypeFinder.addType,
      CommonTypeFinder.empty] at h
    cases hrun : CommonTypeFinder.addTypes model { commonType := some x } xs with
    | none => simp [hrun] at h
    | some result =>
      simp only [hrun] at h
      obtain ⟨T', hT', hxT, hall, hleast⟩ :=
        addTypes_least model hlaw xs { commonType := some x } result x rfl hrun
      rw [h] at hT'
      cases hT'
      refine ⟨by simp, ?_, ?_⟩
      · intro a ha
        rcases List.mem_cons.mp ha with rfl | ha
        · exact hxT
        · exact hall a ha
      · intro U hU
        exact hleast U (hU x (List.mem_cons_self _ _))
          (fun a ha => hU a (List.mem_cons_of_mem _ ha))

theorem inferGenericArgument_unobserved (model : TypeModel) (function : Function)
    (arguments : List ASTExpr) (i : Nat)
    (h : observedTypes i function.parameters arguments = []) :
    inferGenericArgument model function arguments i = none := by
  simp [inferGenericArgument, h, CommonTypeFinder.addTypes, CommonTypeFinder.empty]

theorem addTypes_isSome (model : TypeModel)
    (htotal : ∀ a b, (model.commonSupertype a b).isSome = true)
    (observed : List SemanticType) :
    ∀ c : SemanticType, ∃ T,
      (CommonTypeFinder.addTypes model { commonType := some c } observed).map
        (fun finder => finder.commonType) = some (some T) := by
  induction observed with
  | nil => intro c; exact ⟨c, rfl⟩
  | cons x xs ih =>
    intro c
    have hx := htotal c x
    cases hsup : model.commonSupertype c x with
    | none => simp [hsup] at hx
    | some u =>
      obtain ⟨T, hT⟩ := ih u
      exact ⟨T, by simpa [CommonTypeFinder.addTypes, CommonTypeFinder.addType, hsup] using hT⟩

theorem inferGenericArgument_isSome (model : TypeModel)
    (htotal : ∀ a b, (model.commonSupertype a b).isSome = true)
    (function : Function) (arguments : List ASTExpr) (i : Nat)
    (h : observedTypes i function.parameters arguments ≠ []) :
    ∃ T, inferGenericArgument model function arguments i = some T := by
  unfold inferGenericArgument
  cases hobs : observedTypes i function.parameters arguments with
  | nil => exact absurd hobs h
  | cons x xs =>
    obtain ⟨T, hT⟩ := addTypes_isSome model htotal xs x
    refine ⟨T, ?_⟩
    simp only [CommonTypeFinder.addTypes, CommonTypeFinder.addType, CommonTypeFinder.empty]
    cases hrun : CommonTypeFinder.addTypes model { commonType := some x } xs with
    | none => simp [hrun] at hT
    | some result => simpa [hrun] using hT

theorem inferGenericArgumentsFrom_some (model : TypeModel) (function : Function)
    (arguments : List ASTExpr) (count : Nat) :
    ∀ (i : Nat) (inferred : List SemanticType),
      inferGenericArgumentsFrom model function arguments i count = some inferred →
      inferred.length = count ∧
      ∀ k, k < count → ∃ T, inferred[k]? = some T ∧
        inferGenericArgument model function arguments (i + k) = some T := by
  induction count with
  | zero =>
    intro i inferred h
    simp only [inferGenericArgumentsFrom, Option.some.injEq] at h
    subst h
    exact ⟨rfl, fun k hk => absurd hk (Nat.not_lt_zero k)⟩
  | succ n ih =>
    intro i inferred h
    simp only [inferGenericArgumentsFrom] at h
    cases hfirst : inferGenericArgument model function arguments i with
    | none => simp [hfirst] at h
    | some T =>
      cases hrest : inferGenericArgumentsFrom model function arguments (i + 1) n with
      | none => simp [hfirst, hrest] at h
      | some rest =>
        simp only [hfirst, hrest, Option.some.injEq] at h
        subst h
        obtain ⟨hlen, hall⟩ := ih (i + 1) rest hrest
        refine ⟨by simp [hlen], ?_⟩
        intro k hk
        cases k with
        | zero => exact ⟨T, by simp, by simpa using hfirst⟩
        | succ j =>
          obtain ⟨U, hU1, hU2⟩ := hall j (by omega)
          refine ⟨U, by simpa using hU1, ?_⟩
          rw [← hU2]
          congr 1
          omega

theorem inferGenericArgumentsFrom_none (model : TypeModel) (function : Function)
    (arguments : List ASTExpr) (count : Nat) :
    ∀ (i k : Nat), k < count →
      inferGenericArgument model function arguments (i + k) = none →
      inferGenericArgumentsFrom model function arguments i count = none := by
  induction count with
  | zero => intro i k hk; exact absurd hk (Nat.not_lt_zero k)
  | succ n ih =>
    intro i k hk hnone
    simp only [inferGenericArgumentsFrom]
    cases hfirst : inferGenericArgument model function arguments i with
    | none => rfl
    | some T =>
      cases k with
      | zero => simp [hfirst] at hnone
      | succ j =>
        have := ih (i + 1) j (by omega) (by rw [← hnone]; congr 1; omega)
        simp [this]

theorem inferGenericArgumentsFrom_isSome (model : TypeModel) (function : Function)
    (arguments : List ASTExpr) (count : Nat) :
    ∀ (i : Nat),
      (∀ k, k < count → ∃ T, inferGenericArgument model function arguments (i + k) = some T) →
      ∃ inferred, inferGenericArgumentsFrom model function arguments i count = some inferred := by
  induction count with
  | zero => intro i _; exact ⟨[], rfl⟩
  | succ n ih =>
    intro i h
    obtain ⟨T, hT⟩ := h 0 (by omega)
    obtain ⟨rest, hrest⟩ := ih (i + 1) (fun k hk => by
      obtain ⟨U, hU⟩ := h (k + 1) (by omega)
      exact ⟨U, by rw [← hU]; congr 1; omega⟩)
    refine ⟨T :: rest, ?_⟩
    simp only [Nat.add_zero] at hT
    simp [inferGenericArgumentsFrom, hT, hrest]

theorem exampleModel_compatible_iff (a b : SemanticType) :
    exampleModel.compatible a b = true ↔ a = b ∨ b = anyType := by
  simp [exampleModel, SemanticType.same_iff]

theorem exampleModel_commonSupertype (a b u : SemanticType) :
    exampleModel.commonSupertype a b = some u ↔ (a = b ∧ u = a) ∨ (a ≠ b ∧ u = anyType) := by
  simp only [exampleModel, Option.some.injEq]
  by_cases h : a = b
  · subst h
    simp [SemanticType.same_self, eq_comm]
  · have hs : a.same b = false := by
      cases hsame : a.same b
      · rfl
      · exact absurd ((SemanticType.same_iff a b).mp hsame) h
    simp [hs, h, eq_comm]

theorem exampleModel_lawful : exampleModel.Lawful where
  refl a := (exampleModel_compatible_iff a a).mpr (Or.inl rfl)
  trans a b c hab hbc := by
    rw [exampleModel_compatible_iff] at *
    rcases hab with rfl | rfl
    · exact hbc
    · rcases hbc with rfl | rfl
      · exact Or.inr rfl
      · exact Or.inr rfl
  left a b u h := by
    rw [exampleModel_compatible_iff]
    rcases (exampleModel_commonSupertype a b u).mp h with ⟨-, rfl⟩ | ⟨-, rfl⟩
    · exact Or.inl rfl
    · exact Or.inr rfl
  right a b u h := by
    rw [exampleModel_compatible_iff]
    rcases (exampleModel_commonSupertype a b u).mp h with ⟨rfl, rfl⟩ | ⟨-, rfl⟩
    · exact Or.inl rfl
    · exact Or.inr rfl
  least a b u w h haw hbw := by
    rw [exampleModel_compatible_iff] at *
    rcases (exampleModel_commonSupertype a b u).mp h with ⟨rfl, rfl⟩ | ⟨hne, rfl⟩
    · exact haw
    · rcases haw with rfl | rfl
      · rcases hbw with rfl | rfl
        · exact absurd rfl hne
        · exact Or.inl rfl
      · exact Or.inl rfl

/-- C5: for a call to a generic function that supplies no explicit type arguments,
`ensureGenericArguments` infers for every generic parameter the least common supertype of
the actual argument types at the positions whose declared parameter type mentions that
parameter, and fails with an inference failure when some generic parameter appears in no
argument position.  It does produce a result when every parameter is observed and any two
types have a common supertype.  For `f<T>(a: T, b: T)`: `Int, Int` gives `T = Int`,
`Int, String` gives `T = Any`; for `g<T, U>(a: T)` inference fails with an inference
failure. -/
theorem ensureGenericArguments_infers (model : TypeModel) (hlaw : model.Lawful)
    (node : ASTArguments) (type : SemanticType) (function : Function)
    (hnone : node.genericArguments = []) (hgeneric : 0 < function.genericParameterCount) :
    ((∃ i, i < function.genericParameterCount ∧
        observedTypes i function.parameters node.arguments = []) →
      ensureGenericArguments model node type function =
        .error { kind := .inferenceFailure, position := node.position }) ∧
    ((∀ i, i < function.genericParameterCount →
        observedTypes i function.parameters node.arguments ≠ []) →
      (∀ a b, (model.commonSupertype a b).isSome = true) →
      ∃ inferred, ensureGenericArguments model node type function =
        .ok { node with genericArguments := inferred }) ∧
    (∀ ensured, ensureGenericArguments model node type function = .ok ensured →
      ensured.position = node.position ∧ ensured.arguments = node.arguments ∧
      ensured.genericArguments.length = function.genericParameterCount ∧
      ∀ i, i < function.genericParameterCount →
        ∃ T, ensured.genericArguments[i]? = some T ∧
          observedTypes i function.parameters node.arguments ≠ [] ∧
          IsLeastCommonSupertype model T
            (observedTypes i function.parameters node.arguments)) ∧
    (∀ diagnostic, ensureGenericArguments model node type function = .error diagnostic →
      diagnostic = { kind := .inferenceFailure, position := node.position }) ∧
    ((ensureGenericArguments exampleModel
        (callWith 1 [argumentOfType 1 intType, argumentOfType 1 intType]) anyType
        genericPair).toOption.map (fun ensured => ensured.genericArguments) =
      some [intType]) ∧
    ((ensureGenericArguments exampleModel
        (callWith 1 [argumentOfType 1 intType, argumentOfType 1 stringType]) anyType
        genericPair).toOption.map (fun ensured => ensured.genericArguments) =
      some [anyType]) ∧
    ensureGenericArguments exampleModel (callWith 1 [argumentOfType 1 intType]) anyType
        genericUnused = .error { kind := .inferenceFailure, position := 1 } := by
  have hcount : function.genericParameterCount ≠ 0 := by omega
  have hunfold : ensureGenericArguments model node type function =
      match inferGenericArgumentsFrom model function node.arguments 0
          function.genericParameterCount with
      | some inferred => .ok { node with genericArguments := inferred }
      | none => .error { kind := .inferenceFailure, position := node.position } := by
    simp [ensureGenericArguments, hnone, hcount]
  refine ⟨?_, ?_, ?_, ?_, rfl, rfl, rfl⟩
  · rintro ⟨i, hi, hobs⟩
    rw [hunfold, inferGenericArgumentsFrom_none model function node.arguments _ 0 i hi
      (by simpa using inferGenericArgument_unobserved model function node.arguments i hobs)]
  · intro hobs htotal
    obtain ⟨inferred, hinf⟩ := inferGenericArgumentsFrom_isSome model function
      node.arguments function.genericParameterCount 0 (fun k hk => by
        simpa using inferGenericArgument_isSome model htotal function node.arguments k
          (hobs k hk))
    exact ⟨inferred, by rw [hunfold, hinf]⟩
  · intro ensured h
    rw [hunfold] at h
    cases hinf : inferGenericArgumentsFrom model function node.arguments 0
        function.genericParameterCount with
    | none => simp [hinf] at h
    | some inferred =>
      simp only [hinf, Except.ok.injEq] at h
      subst h
      obtain ⟨hlen, hall⟩ := inferGenericArgumentsFrom_some model function node.arguments
        function.genericParameterCount 0 inferred hinf
      refine ⟨rfl, rfl, hlen, ?_⟩
      intro i hi
      obtain ⟨T, hT1, hT2⟩ := hall i hi
      rw [Nat.zero_add] at hT2
      obtain ⟨hne, hleast⟩ :=
        inferGenericArgument_least model hlaw function node.arguments i T hT2
      exact ⟨T, hT1, hne, hleast⟩
  · intro diagnostic h
    rw [hunfold] at h
    cases hinf : inferGenericArgumentsFrom model function node.arguments 0
        function.genericParameterCount with
    | none =>
      simp only [hinf, Except.error.injEq] at h
      exact h.symm
    | some inferred => simp [hinf] at h

/-- Witness for C5: the example type model is lawful, and for `f<T>(a: T, b: T)` called
with `Int` and `String` the inferred `T` is a least common supertype of the two. -/
theorem ensureGenericArguments_infers_witness :
    exampleModel.Lawful ∧
    (callWith 1 [argumentOfType 1 intType, argumentOfType 1 stringType]).genericArguments = [] ∧
    0 < genericPair.genericParameterCount ∧
    ∃ T, [anyType][0]? = some T ∧
      observedTypes 0 genericPair.parameters
        [argumentOfType 1 intType, argumentOfType 1 stringType] ≠ [] ∧
      IsLeastCommonSupertype exampleModel T
        (observedTypes 0 genericPair.parameters
          [argumentOfType 1 intType, argumentOfType 1 stringType]) :=
  ⟨exampleModel_lawful, rfl, by decide,
    ((ensureGenericArguments_infers exampleModel exampleModel_lawful
      (callWith 1 [argumentOfType 1 intType, argumentOfType 1 stringType]) anyType
      genericPair rfl (by decide)).2.2.1
      { position := 1, genericArguments := [anyType],
        arguments := [argumentOfType 1 intType, argumentOfType 1 stringType] } rfl).2.2.2
      0 (by decide)⟩

/-! ### Call analysis -/

end EmojicodeCompiler
